import Mathlib

/-!
Verification development for the ESP-UniPwn repository.

The repository implements a BLE configuration protocol for UniTree robots in
two roles: a responder (esp32-emulator/src/main.cpp) and an initiator
(esp32-scanner firmware).  Byte sequences are modelled as `List Nat` whose
entries denote unsigned bytes; machine-integer truncation is made explicit
with `% 256` (uint8) and `% 2 ^ 32` (uint32) exactly where the C++ code
performs it.
-/

/-- Read byte `i` of a byte sequence, defaulting to 0 (C++ `operator[]` on
the in-range indices used by the code). -/
def getByte (l : List Nat) (i : Nat) : Nat := l.getD i 0

/-- Association-list lookup, first match wins (models `std::map::find` /
NVS key lookup). -/
def assocFind {κ α : Type} [DecidableEq κ] (k : κ) : List (κ × α) → Option α
  | [] => none
  | (k', v) :: rest => if k' = k then some v else assocFind k rest

/-- Association-list insert-or-replace (models `std::map::operator[]=` and
NVS `putString`, both of which overwrite an existing key). -/
def assocInsert {κ α : Type} [DecidableEq κ] (k : κ) (v : α) : List (κ × α) → List (κ × α)
  | [] => [(k, v)]
  | (k', v') :: rest =>
    if k' = k then (k', v) :: rest else (k', v') :: assocInsert k v rest

/-! ### AES-128 block cipher

The repository delegates the block cipher to mbedTLS
(`mbedtls_aes_crypt_cfb128` keyed once by `mbedtls_aes_setkey_enc`).  The
cipher is reproduced here from its standard definition: GF(2^8) arithmetic,
the S-box as affine transform of the field inverse, the key schedule and the
ten rounds.  Only the forward (encryption) direction exists, as in the
source, where CFB mode never exercises the inverse cipher. -/

/-- Multiplication by x in GF(2^8) modulo x^8+x^4+x^3+x+1 (byte-valued). -/
def xtime (a : Nat) : Nat :=
  ((2 * (a % 256)) ^^^ (if 128 ≤ a % 256 then 27 else 0)) % 256

/-- Russian-peasant GF(2^8) multiplication, 8 steps. -/
def gfMulGo : Nat → Nat → Nat → Nat → Nat
  | 0, _, _, acc => acc
  | fuel + 1, a, b, acc =>
    gfMulGo fuel (xtime a) (b / 2) (if b % 2 = 1 then acc ^^^ a else acc)

/-- GF(2^8) product of two bytes. -/
def gfMul (a b : Nat) : Nat := gfMulGo 8 (a % 256) (b % 256) 0

/-- GF(2^8) power (used as a^254 = a⁻¹ by Fermat). -/
def gfPow (a : Nat) : Nat → Nat
  | 0 => 1
  | n + 1 => gfMul a (gfPow a n)

/-- Rotate a byte left by `k` bits. -/
def rotl8 (x k : Nat) : Nat := ((x % 256) * 2 ^ k + (x % 256) / 2 ^ (8 - k)) % 256

/-- The AES S-box: affine transform of the GF(2^8) inverse. -/
def sboxByte (b : Nat) : Nat :=
  let inv := if b % 256 = 0 then 0 else gfPow (b % 256) 254
  (((((inv ^^^ rotl8 inv 1) ^^^ rotl8 inv 2) ^^^ rotl8 inv 3) ^^^ rotl8 inv 4) : Nat) ^^^ 99

/-- AES round constants: rcon 1 = 1, doubling in GF(2^8). -/
def rconByte : Nat → Nat
  | 0 => 0
  | 1 => 1
  | n + 2 => xtime (rconByte (n + 1))

/-- Byte-wise xor of two 4-byte words. -/
def xorWords (a b : List Nat) : List Nat := List.zipWith (· ^^^ ·) a b

/-- Rotate a 4-byte word left by one byte. -/
def rotWord (w : List Nat) : List Nat := w.drop 1 ++ w.take 1

/-- Apply the S-box to each byte of a word. -/
def subWord (w : List Nat) : List Nat := w.map sboxByte

/-- The fixed 128-bit AES key hardcoded in the UniTree firmware
(`AES_KEY` in both roles). -/
def aesKey : List Nat :=
  [0xdf, 0x98, 0xb7, 0x15, 0xd5, 0xc6, 0xed, 0x2b,
   0x25, 0x81, 0x7b, 0x6f, 0x25, 0x54, 0x12, 0x4a]

/-- The fixed 128-bit initialization vector hardcoded in the UniTree
firmware (`AES_IV` in both roles). -/
def aesIV : List Nat :=
  [0x28, 0x41, 0xae, 0x97, 0x41, 0x9c, 0x29, 0x73,
   0x29, 0x6a, 0x0d, 0x4b, 0xdf, 0xe1, 0x9a, 0x4f]

/-- AES-128 key schedule: the 44 four-byte words expanded from `aesKey`. -/
def keyScheduleWords : List (List Nat) :=
  (List.range 40).foldl
    (fun ws k =>
      let i := k + 4
      let prev := ws.getD (i - 1) []
      let temp :=
        if i % 4 = 0 then xorWords (subWord (rotWord prev)) [rconByte (i / 4), 0, 0, 0]
        else prev
      ws ++ [xorWords (ws.getD (i - 4) []) temp])
    [aesKey.take 4, (aesKey.drop 4).take 4, (aesKey.drop 8).take 4, aesKey.drop 12]

/-- The 16 bytes of round key `r` (0..10). -/
def roundKeyBytes (r : Nat) : List Nat :=
  ((keyScheduleWords.drop (4 * r)).take 4).flatten

/-- AddRoundKey: byte-wise xor of state and round key. -/
def addRoundKey (st rk : List Nat) : List Nat := List.zipWith (· ^^^ ·) st rk

/-- SubBytes over the 16-byte state. -/
def subBytesState (st : List Nat) : List Nat := st.map sboxByte

/-- ShiftRows on the column-major 16-byte state (byte i sits at row i % 4,
column i / 4). -/
def shiftRows (st : List Nat) : List Nat :=
  (List.range 16).map fun i => getByte st (4 * ((i / 4 + i % 4) % 4) + i % 4)

/-- One MixColumns output byte: 2·a0 ⊕ 3·a1 ⊕ a2 ⊕ a3. -/
def mixSingle (a0 a1 a2 a3 : Nat) : Nat :=
  (xtime a0 ^^^ (xtime a1 ^^^ a1)) ^^^ (a2 ^^^ a3)

/-- MixColumns over the column-major 16-byte state. -/
def mixColumns (st : List Nat) : List Nat :=
  (List.range 16).map fun i =>
    let a := fun j => getByte st (4 * (i / 4) + j)
    match i % 4 with
    | 0 => mixSingle (a 0) (a 1) (a 2) (a 3)
    | 1 => mixSingle (a 1) (a 2) (a 3) (a 0)
    | 2 => mixSingle (a 2) (a 3) (a 0) (a 1)
    | _ => mixSingle (a 3) (a 0) (a 1) (a 2)

/-- AES-128 forward block encryption under the fixed key (the single
`mbedtls_aes_context` keyed by `mbedtls_aes_setkey_enc(&aes_ctx, AES_KEY, 128)`). -/
def aesEncryptBlock (input : List Nat) : List Nat :=
  let st0 := addRoundKey (input.map (· % 256)) (roundKeyBytes 0)
  let stm :=
    (List.range 9).foldl
      (fun st r => addRoundKey (mixColumns (shiftRows (subBytesState st))) (roundKeyBytes (r + 1)))
      st0
  addRoundKey (shiftRows (subBytesState stm)) (roundKeyBytes 10)

/-! ### CFB128 stream transform

Byte-for-byte model of mbedTLS `mbedtls_aes_crypt_cfb128`: a 16-byte
feedback register `iv` and an offset `n`; when `n = 0` the register is run
through the block cipher; each output byte is the xor of the register byte
with the input byte; the register byte is then overwritten with the
ciphertext byte.  Both `encryptData` and `decryptData` in the source copy
the fixed IV afresh and start at offset 0 on every call, so every packet is
transformed independently. -/

def cfbEncrypt (E : List Nat → List Nat) : List Nat → Nat → List Nat → List Nat
  | _, _, [] => []
  | iv, n, b :: bs =>
    let ivCur := if n = 0 then E iv else iv
    let c := (getByte ivCur n % 256) ^^^ (b % 256)
    c :: cfbEncrypt E (ivCur.set n c) ((n + 1) % 16) bs

def cfbDecrypt (E : List Nat → List Nat) : List Nat → Nat → List Nat → List Nat
  | _, _, [] => []
  | iv, n, x :: xs =>
    let ivCur := if n = 0 then E iv else iv
    let c := x % 256
    let p := c ^^^ (getByte ivCur n % 256)
    p :: cfbDecrypt E (ivCur.set n c) ((n + 1) % 16) xs

/-- Model of `encryptData` in the source: AES-CFB128 forward transform with the fixed
key and a fresh copy of the fixed IV. -/
def encryptData (data : List Nat) : List Nat := cfbEncrypt aesEncryptBlock aesIV 0 data

/-- Model of `decryptData` in the source: AES-CFB128 inverse transform with the fixed
key and a fresh copy of the fixed IV. -/
def decryptData (data : List Nat) : List Nat := cfbDecrypt aesEncryptBlock aesIV 0 data

/-! ### Checksum and packet codec -/

/-- Model of `calculateChecksum`: two's complement of the uint32 byte sum, truncated
to a byte (`(-sum) & 0xFF`). -/
def calculateChecksum (data : List Nat) : Nat :=
  (2 ^ 32 - data.sum % 2 ^ 32) % 256

/-- Model of `validateChecksum`: at least 4 bytes and uint32 byte sum ≡ 0 (mod 256)
(`(sum & 0xFF) == 0`). -/
def validateChecksum (packet : List Nat) : Bool :=
  if packet.length < 4 then false
  else (packet.sum % 2 ^ 32) % 256 == 0

/-- The plaintext bytes assembled by the emulator's `createResponse` before
encryption: `[0x51, length, instruction, data..., checksum]` with
`length = 1 + data.size + 1 + 2` as a uint8. -/
def plainResponse (instruction : Nat) (data : List Nat) : List Nat :=
  let pre := 0x51 :: ((1 + data.length + 1 + 2) % 256) :: instruction :: data
  pre ++ [calculateChecksum pre]

/-- Model of the emulator's `createResponse`: assemble the response packet and
encrypt it. -/
def createResponse (instruction : Nat) (data : List Nat) : List Nat :=
  encryptData (plainResponse instruction data)

/-- The plaintext bytes assembled by the scanner's `createPacket` before
encryption: `[0x52, length, instruction, data..., checksum]` with
`length = instruction_data.size() + 3` as a uint8. -/
def plainRequest (instruction : Nat) (data : List Nat) : List Nat :=
  let instructionData := instruction :: data
  let pre := 0x52 :: ((instructionData.length + 3) % 256) :: instructionData
  pre ++ [calculateChecksum pre]

/-- Model of the scanner's `createPacket`: assemble the request packet and encrypt
it. -/
def createPacket (instruction : Nat) (data : List Nat) : List Nat :=
  encryptData (plainRequest instruction data)

/-- The payload field of a decoded packet: bytes 3 .. size-2 (everything
between the three header bytes and the trailing checksum byte). -/
def payloadOf (packet : List Nat) : List Nat := (packet.drop 3).dropLast

/-! ### Responder (esp32-emulator) session state and instruction handlers

Strings held by the emulator (`ssid`, `password`, `country`, the handshake
passphrase) are modelled as byte lists; appending `(char)byte` to an Arduino
`String` corresponds to appending the byte. -/

/-- The mutable fields of the global `UniTreeEmulator` object. -/
structure Session where
  authenticated : Bool
  ssid : List Nat
  password : List Nat
  country : List Nat
  ssidBuffer : List Nat
  passwordBuffer : List Nat
  ssidChunksReceived : Nat
  passwordChunksReceived : Nat
  ssidTotalChunks : Nat
  passwordTotalChunks : Nat

/-- The emulator state after construction / `reset()`. -/
def initSession : Session := ⟨false, [], [], [], [], [], 0, 0, 0, 0⟩

/-- ASCII bytes of the literal passphrase `"unitree"`. -/
def unitreeBytes : List Nat := [117, 110, 105, 116, 114, 101, 101]

/-- ASCII bytes of `SERIAL_NUMBER` = `"ESP32-EMULATOR-v1.0-TESTDEVICE"`. -/
def serialNumberBytes : List Nat :=
  [69, 83, 80, 51, 50, 45, 69, 77, 85, 76, 65, 84, 79, 82, 45,
   118, 49, 46, 48, 45, 84, 69, 83, 84, 68, 69, 86, 73, 67, 69]

/-- Model of `handleHandshake`: packets shorter than 12 bytes fail immediately (the
session is untouched); otherwise bytes 5 .. size-2 are compared with
`"unitree"` and `authenticated` is set or cleared. -/
def handleHandshake (s : Session) (packet : List Nat) : Session × List Nat :=
  if packet.length < 12 then (s, createResponse 1 [0x00])
  else
    let authString := (packet.drop 5).dropLast
    if authString = unitreeBytes then
      ({ s with authenticated := true }, createResponse 1 [0x01])
    else
      ({ s with authenticated := false }, createResponse 1 [0x00])

/-- Model of `handleGetSerial`: gated on `authenticated`; on success the serial is
sent as the single chunk `[0x01, 0x01, serial...]`. -/
def handleGetSerial (s : Session) (_packet : List Nat) : Session × List Nat :=
  if s.authenticated = false then (s, createResponse 2 [0x00])
  else (s, createResponse 2 (0x01 :: 0x01 :: serialNumberBytes))

/-- Model of `handleInitWiFi`: the mode byte is only logged; always succeeds on a
packet of at least 4 bytes. -/
def handleInitWiFi (s : Session) (packet : List Nat) : Session × List Nat :=
  if packet.length < 4 then (s, createResponse 3 [0x00])
  else (s, createResponse 3 [0x01])

/-- Model of `handleSetSSID`: append bytes 5 .. size-2 to the ssid buffer, bump the
chunks-received counter, and compare it against the `totalChunks` byte of
the current packet (byte 4); on completion resolve `ssid`, clear the
buffer/counter and respond success, otherwise respond nothing (empty byte
vector). -/
def handleSetSSID (s : Session) (packet : List Nat) : Session × List Nat :=
  if packet.length < 5 then (s, createResponse 4 [0x00])
  else
    let totalChunks := getByte packet 4
    let buf := s.ssidBuffer ++ (packet.drop 5).dropLast
    let received := s.ssidChunksReceived + 1
    if totalChunks ≤ received then
      ({ s with ssid := buf, ssidBuffer := [], ssidChunksReceived := 0 },
        createResponse 4 [0x01])
    else
      ({ s with ssidBuffer := buf, ssidChunksReceived := received }, [])

/-- Model of `handleSetPassword`: same reassembly discipline as `handleSetSSID` into
the password buffer (the injection-pattern scan in the source only prints a
warning and is not modelled). -/
def handleSetPassword (s : Session) (packet : List Nat) : Session × List Nat :=
  if packet.length < 5 then (s, createResponse 5 [0x00])
  else
    let totalChunks := getByte packet 4
    let buf := s.passwordBuffer ++ (packet.drop 5).dropLast
    let received := s.passwordChunksReceived + 1
    if totalChunks ≤ received then
      ({ s with password := buf, passwordBuffer := [], passwordChunksReceived := 0 },
        createResponse 5 [0x01])
    else
      ({ s with passwordBuffer := buf, passwordChunksReceived := received }, [])

/-- Model of `handleSetCountry`: rebuild `country` from the non-null bytes at
indices 4 .. size-2 and always respond success (on a packet of at least 5
bytes). -/
def handleSetCountry (s : Session) (packet : List Nat) : Session × List Nat :=
  if packet.length < 5 then (s, createResponse 6 [0x00])
  else
    ({ s with country := ((packet.drop 4).dropLast).filter (fun b => b != 0) },
      createResponse 6 [0x01])

/-- Model of the emulator's `processPacket`, taking the already-decrypted bytes:
drop packets shorter than 4 bytes, with an opcode other than 0x52, or with
a bad checksum (the declared-length byte is only compared for a log
warning and never causes rejection), then dispatch on the instruction
byte; an empty response list means no notification is sent. -/
def processPacket (s : Session) (decrypted : List Nat) : Session × List Nat :=
  if decrypted.length < 4 then (s, [])
  else if getByte decrypted 0 ≠ 0x52 then (s, [])
  else if validateChecksum decrypted = false then (s, [])
  else if getByte decrypted 2 = 1 then handleHandshake s decrypted
  else if getByte decrypted 2 = 2 then handleGetSerial s decrypted
  else if getByte decrypted 2 = 3 then handleInitWiFi s decrypted
  else if getByte decrypted 2 = 4 then handleSetSSID s decrypted
  else if getByte decrypted 2 = 5 then handleSetPassword s decrypted
  else if getByte decrypted 2 = 6 then handleSetCountry s decrypted
  else (s, [])

/-- Which instruction handler `processPacket` dispatches a decrypted byte
sequence to, if any; mirrors the validation and switch of `processPacket`
(`none` = the packet is dropped or hits the unknown-instruction default). -/
def dispatchesTo (decrypted : List Nat) : Option Nat :=
  if decrypted.length < 4 then none
  else if getByte decrypted 0 ≠ 0x52 then none
  else if validateChecksum decrypted = false then none
  else if getByte decrypted 2 = 1 then some 1
  else if getByte decrypted 2 = 2 then some 2
  else if getByte decrypted 2 = 3 then some 3
  else if getByte decrypted 2 = 4 then some 4
  else if getByte decrypted 2 = 5 then some 5
  else if getByte decrypted 2 = 6 then some 6
  else none

/-- Deliver a sequence of decrypted packets to the responder in order,
collecting each packet's (possibly empty) response. -/
def runResponder (s : Session) : List (List Nat) → Session × List (List Nat)
  | [] => (s, [])
  | p :: ps =>
    let step := processPacket s p
    let rest := runResponder step.1 ps
    (rest.1, step.2 :: rest.2)

/-! ### Initiator (esp32-scanner) serial reassembly and device registry -/

/-- The scanner's serial-number reassembly globals: the index-keyed chunk
map, the last declared total, the completion flag and the resolved
serial. -/
structure ScanState where
  serialChunks : List (Nat × List Nat)
  serialTotalChunks : Nat
  serialComplete : Bool
  serialNumber : List Nat

/-- Scanner reassembly state after reset. -/
def initScanState : ScanState := ⟨[], 0, false, []⟩

/-- Final serial reconstruction: iterate chunk indices 1 .. totalChunks in
order, concatenating present entries and skipping zero-valued padding
bytes. -/
def rebuildSerial (chunks : List (Nat × List Nat)) (totalChunks : Nat) : List Nat :=
  (List.range' 1 totalChunks).flatMap fun i =>
    match assocFind i chunks with
    | some d => d.filter (fun b => b != 0)
    | none => []

/-- The scanner's `notifyCallback` after decryption: require at least 5
bytes, opcode 0x51 and a valid checksum; for instruction 0x02 store the
chunk under its index, record the declared total, and when the number of
stored chunks reaches it rebuild the serial and mark completion. -/
def scanProcess (st : ScanState) (decrypted : List Nat) : ScanState :=
  if decrypted.length < 5 then st
  else if getByte decrypted 0 ≠ 0x51 then st
  else if validateChecksum decrypted = false then st
  else if getByte decrypted 2 = 2 then
    let chunkIndex := getByte decrypted 3
    let totalChunks := getByte decrypted 4
    let chunkData := (decrypted.drop 5).dropLast
    let chunks := assocInsert chunkIndex chunkData st.serialChunks
    if totalChunks ≤ chunks.length then
      { serialChunks := chunks, serialTotalChunks := totalChunks,
        serialComplete := true, serialNumber := rebuildSerial chunks totalChunks }
    else
      { st with serialChunks := chunks, serialTotalChunks := totalChunks }
  else st

/-- The scanner's `notifyCallback` on raw notification bytes: decrypt, then
process. -/
def notifyCallbackFn (st : ScanState) (raw : List Nat) : ScanState :=
  scanProcess st (decryptData raw)

/-- Whether the scanner's `notifyCallback` reaches its serial-chunk handling
for a decrypted byte sequence; mirrors the checks of `scanProcess`. -/
def scanDispatches (decrypted : List Nat) : Bool :=
  if decrypted.length < 5 then false
  else if getByte decrypted 0 ≠ 0x51 then false
  else if validateChecksum decrypted = false then false
  else getByte decrypted 2 == 2

/-- A validly framed serial-number response chunk as the emulator builds it:
instruction 0x02 with payload `[chunkIndex, totalChunks, data...]`
(plaintext form). -/
def mkSerialChunk (idx totalChunks : Nat) (data : List Nat) : List Nat :=
  plainResponse 2 (idx :: totalChunks :: data)

/-- Model of `sanitizeKey`: canonicalize a MAC address by stripping `':'`
(ASCII 58). -/
def sanitizeKey (mac : List Nat) : List Nat := mac.filter (fun c => c != 58)

/-- The NVS namespace `"unitree_scan"` modelled as a key/value store. -/
abbrev Store := List (List Nat × List Nat)

/-- NVS `isKey`. -/
def prefsIsKey (st : Store) (k : List Nat) : Bool := (assocFind k st).isSome

/-- NVS `putString` (overwrites an existing key). -/
def prefsPutString (st : Store) (k v : List Nat) : Store := assocInsert k v st

/-- Model of `isDeviceScanned`: key present under the sanitized MAC. -/
def isDeviceScanned (st : Store) (mac : List Nat) : Bool :=
  prefsIsKey st (sanitizeKey mac)

/-- Model of `saveDeviceData`: store the serial under the sanitized MAC. -/
def saveDeviceData (st : Store) (mac serial : List Nat) : Store :=
  prefsPutString st (sanitizeKey mac) serial

/-- The registry insertion flow of `connectAndFetchSerial`: a device whose
identifier is already stored is skipped before any connection attempt
(`isDeviceScanned` guard), otherwise its record is saved. -/
def insertDevice (st : Store) (mac serial : List Nat) : Store :=
  if isDeviceScanned st mac then st else saveDeviceData st mac serial

/-! ### General lemmas -/

theorem sum_map_mod (l : List Nat) : (l.map (· % 256)).sum % 256 = l.sum % 256 := by
  induction l with
  | nil => rfl
  | cons a l ih => simp only [List.map_cons, List.sum_cons]; omega

theorem cfb_roundtrip (E : List Nat → List Nat) :
    ∀ (bs iv : List Nat) (n : Nat),
      cfbDecrypt E iv n (cfbEncrypt E iv n bs) = bs.map (· % 256) := by
  intro bs
  induction bs with
  | nil => intro iv n; rfl
  | cons b bs ih =>
    intro iv n
    simp only [cfbEncrypt, cfbDecrypt, List.map_cons]
    set ivCur := if n = 0 then E iv else iv with hIv
    set k := getByte ivCur n % 256 with hk
    have hklt : k < 256 := by rw [hk]; exact Nat.mod_lt _ (by norm_num)
    have hblt : b % 256 < 256 := Nat.mod_lt _ (by norm_num)
    have hc : k ^^^ (b % 256) < 256 := by
      have h8 : (256 : Nat) = 2 ^ 8 := by norm_num
      rw [h8] at hklt hblt ⊢
      exact Nat.xor_lt_two_pow hklt hblt
    rw [Nat.mod_eq_of_lt hc]
    refine congrArg₂ List.cons ?_ (ih _ _)
    rw [Nat.xor_comm k (b % 256), Nat.xor_assoc, Nat.xor_self, Nat.xor_zero]

theorem decryptData_encryptData (data : List Nat) :
    decryptData (encryptData data) = data.map (· % 256) :=
  cfb_roundtrip aesEncryptBlock data aesIV 0

theorem decryptData_encryptData_of_bytes (data : List Nat) (h : ∀ b ∈ data, b < 256) :
    decryptData (encryptData data) = data := by
  rw [decryptData_encryptData]
  induction data with
  | nil => rfl
  | cons a l ih =>
    have ha : a % 256 = a := Nat.mod_eq_of_lt (h a (by simp))
    simp only [List.map_cons, ha]
    rw [ih (fun b hb => h b (by simp [hb]))]

theorem checksum_append_sum (pre : List Nat) :
    (pre ++ [calculateChecksum pre]).sum % 256 = 0 := by
  simp only [List.sum_append, List.sum_cons, List.sum_nil, calculateChecksum]
  omega

theorem validateChecksum_append (pre : List Nat) (h : 3 ≤ pre.length) :
    validateChecksum (pre ++ [calculateChecksum pre]) = true := by
  have hlen : ¬ ((pre ++ [calculateChecksum pre]).length < 4) := by
    simp only [List.length_append, List.length_cons, List.length_nil]
    omega
  unfold validateChecksum
  rw [if_neg hlen, Nat.mod_mod_of_dvd _ (by norm_num : (256 : Nat) ∣ 2 ^ 32)]
  simp only [beq_iff_eq]
  exact checksum_append_sum pre

theorem cfbEncrypt_cons_ne_nil (E : List Nat → List Nat) (iv : List Nat) (n b : Nat)
    (bs : List Nat) : cfbEncrypt E iv n (b :: bs) ≠ [] := by
  simp only [cfbEncrypt]
  exact List.cons_ne_nil _ _

theorem createResponse_ne_nil (instruction : Nat) (data : List Nat) :
    createResponse instruction data ≠ [] := by
  unfold createResponse encryptData plainResponse
  dsimp only
  simp only [List.cons_append]
  exact cfbEncrypt_cons_ne_nil _ _ _ _ _

theorem assocFind_insert_self {κ α : Type} [DecidableEq κ] (k : κ) (v : α)
    (l : List (κ × α)) : assocFind k (assocInsert k v l) = some v := by
  induction l with
  | nil => simp [assocInsert, assocFind]
  | cons p l ih =>
    obtain ⟨k', v'⟩ := p
    by_cases h : k' = k <;> simp [assocInsert, assocFind, h, ih]

theorem assocInsert_of_not_mem {κ α : Type} [DecidableEq κ] (k : κ) (v : α)
    (l : List (κ × α)) (h : ∀ p ∈ l, p.1 ≠ k) :
    assocInsert k v l = l ++ [(k, v)] := by
  induction l with
  | nil => rfl
  | cons p l ih =>
    obtain ⟨k', v'⟩ := p
    have hk : k' ≠ k := h (k', v') (by simp)
    simp only [assocInsert, if_neg hk, List.cons_append]
    rw [ih (fun p hp => h p (by simp [hp]))]

theorem assocFind_map {κ α : Type} [DecidableEq κ] (f : κ → α) (k : κ) :
    ∀ l : List κ,
      assocFind k (l.map fun i => (i, f i)) = if k ∈ l then some (f k) else none := by
  intro l
  induction l with
  | nil => simp [assocFind]
  | cons a l ih =>
    simp only [List.map_cons, assocFind, List.mem_cons]
    by_cases h : a = k
    · subst h; simp
    · rw [if_neg h, ih]
      by_cases hm : k ∈ l
      · rw [if_pos hm, if_pos (Or.inr hm)]
      · rw [if_neg hm, if_neg ?_]
        rintro (rfl | hk)
        · exact h rfl
        · exact hm hk

/-- Decryption of a `createResponse` packet recovers the plaintext response bytes
(reduced mod 256). -/
theorem decrypt_createResponse (instruction : Nat) (data : List Nat) :
    decryptData (createResponse instruction data)
      = (plainResponse instruction data).map (· % 256) := by
  unfold createResponse
  exact decryptData_encryptData _

/-- Decryption of a `createPacket` packet recovers the plaintext request bytes
(reduced mod 256). -/
theorem decrypt_createPacket (instruction : Nat) (data : List Nat) :
    decryptData (createPacket instruction data)
      = (plainRequest instruction data).map (· % 256) := by
  unfold createPacket
  exact decryptData_encryptData _

/-- Claim C2: every packet built by either encoder (`createResponse` at the
responder, `createPacket` at the initiator) has unsigned byte-sum ≡ 0
(mod 256) over all bytes including the trailing checksum, both as the
plaintext assembled before encryption and as the decryption of the
emitted packet. -/
theorem packet_checksum_invariant (instruction : Nat) (data : List Nat) :
    (plainResponse instruction data).sum % 256 = 0
    ∧ (plainRequest instruction data).sum % 256 = 0
    ∧ (decryptData (createResponse instruction data)).sum % 256 = 0
    ∧ (decryptData (createPacket instruction data)).sum % 256 = 0 := by
  refine ⟨checksum_append_sum _, checksum_append_sum _, ?_, ?_⟩
  · rw [decrypt_createResponse, sum_map_mod]
    exact checksum_append_sum _
  · rw [decrypt_createPacket, sum_map_mod]
    exact checksum_append_sum _

/-- Claim C3: under the fixed key and fixed IV (re-initialized on every call, so
each packet is transformed independently), decrypting an encrypted byte
sequence of length at most the maximum packet size returns it exactly. -/
theorem cfb_roundtrip_fixed_key (data : List Nat)
    (hbytes : ∀ b ∈ data, b < 256) (_hlen : data.length ≤ 255) :
    decryptData (encryptData data) = data :=
  decryptData_encryptData_of_bytes data hbytes

theorem cfb_roundtrip_fixed_key_witness :
    (∀ b ∈ ([0x52, 0x0b, 0x01] : List Nat), b < 256)
    ∧ ([0x52, 0x0b, 0x01] : List Nat).length ≤ 255
    ∧ decryptData (encryptData [0x52, 0x0b, 0x01]) = [0x52, 0x0b, 0x01] :=
  ⟨by decide, by decide, cfb_roundtrip_fixed_key _ (by decide) (by decide)⟩

/-- Claim C10: a Handshake packet shorter than 12 bytes makes the handler send
the failure response with payload `[0x00]` while leaving the session — in
particular its `authenticated` flag — completely unchanged. -/
theorem short_handshake_preserves_auth (s : Session) (packet : List Nat)
    (h : packet.length < 12) :
    handleHandshake s packet = (s, createResponse 1 [0x00])
    ∧ (handleHandshake s packet).1.authenticated = s.authenticated
    ∧ createResponse 1 [0x00] ≠ []
    ∧ payloadOf (decryptData (createResponse 1 [0x00])) = [0x00] := by
  refine ⟨?_, ?_, createResponse_ne_nil _ _, ?_⟩
  · unfold handleHandshake
    rw [if_pos h]
  · unfold handleHandshake
    rw [if_pos h]
  · rw [decrypt_createResponse]
    decide

theorem short_handshake_preserves_auth_witness :
    (([0x52, 11, 1, 0, 0, 119, 114, 111, 110, 103, 117] : List Nat).length < 12)
    ∧ (handleHandshake { initSession with authenticated := true }
        [0x52, 11, 1, 0, 0, 119, 114, 111, 110, 103, 117]).1.authenticated = true := by
  refine ⟨by decide, ?_⟩
  rw [(short_handshake_preserves_auth { initSession with authenticated := true }
    [0x52, 11, 1, 0, 0, 119, 114, 111, 110, 103, 117] (by decide)).2.1]

/-- Claim C7: after ssid has resolved to "Net" and password to any byte string
(including metacharacter-bearing ones), a SetCountry request carrying
country bytes "US" leaves ssid and password untouched, sets country to
"US" (the non-null payload bytes) and always returns the success response
`[0x01]`. -/
theorem set_country_scenario (s : Session) (pw : List Nat) (L b3 ck : Nat)
    (hssid : s.ssid = [78, 101, 116]) (hpw : s.password = pw) :
    (handleSetCountry s [0x52, L, 6, b3, 85, 83, ck]).1.ssid = [78, 101, 116]
    ∧ (handleSetCountry s [0x52, L, 6, b3, 85, 83, ck]).1.password = pw
    ∧ (handleSetCountry s [0x52, L, 6, b3, 85, 83, ck]).1.country = [85, 83]
    ∧ (handleSetCountry s [0x52, L, 6, b3, 85, 83, ck]).2 = createResponse 6 [0x01]
    ∧ payloadOf (decryptData (createResponse 6 [0x01])) = [0x01] := by
  have hred : handleSetCountry s [0x52, L, 6, b3, 85, 83, ck]
      = ({ s with country := [85, 83] }, createResponse 6 [0x01]) := by
    unfold handleSetCountry
    rw [if_neg (by simp)]
    simp [List.dropLast]
  rw [hred]
  refine ⟨hssid, hpw, rfl, rfl, ?_⟩
  rw [decrypt_createResponse]
  decide

theorem set_country_scenario_witness :
    ({ initSession with ssid := [78, 101, 116], password := [80, 97, 115, 115, 59, 36, 40] } : Session).ssid
      = [78, 101, 116]
    ∧ (handleSetCountry
        { initSession with ssid := [78, 101, 116], password := [80, 97, 115, 115, 59, 36, 40] }
        [0x52, 7, 6, 0, 85, 83, 99]).1.country = [85, 83] := by
  refine ⟨rfl, ?_⟩
  exact (set_country_scenario
    { initSession with ssid := [78, 101, 116], password := [80, 97, 115, 115, 59, 36, 40] }
    [80, 97, 115, 115, 59, 36, 40] 7 0 99 rfl rfl).2.2.1

/-- Claim C8: in the device registry flow, inserting a record makes `exists`
(`isDeviceScanned`) true for its identifier, and a second insertion with
the same identifier and a different serial is a no-op that leaves the
originally stored serial unchanged (the `isDeviceScanned` guard runs
before any `saveDeviceData`). -/
theorem registry_dedup (st : Store) (mac s1 s2 : List Nat)
    (h0 : isDeviceScanned st mac = false) (_hne : s2 ≠ s1) :
    isDeviceScanned (insertDevice st mac s1) mac = true
    ∧ insertDevice (insertDevice st mac s1) mac s2 = insertDevice st mac s1
    ∧ assocFind (sanitizeKey mac) (insertDevice (insertDevice st mac s1) mac s2)
        = some s1 := by
  have h1 : insertDevice st mac s1 = saveDeviceData st mac s1 := by
    unfold insertDevice
    rw [h0]
    rfl
  have h2 : isDeviceScanned (insertDevice st mac s1) mac = true := by
    rw [h1]
    unfold isDeviceScanned saveDeviceData prefsIsKey prefsPutString
    rw [assocFind_insert_self]
    rfl
  have h3 : insertDevice (insertDevice st mac s1) mac s2 = insertDevice st mac s1 := by
    have hdef : insertDevice (insertDevice st mac s1) mac s2
        = if isDeviceScanned (insertDevice st mac s1) mac then insertDevice st mac s1
          else saveDeviceData (insertDevice st mac s1) mac s2 := rfl
    rw [hdef, h2]
    simp
  refine ⟨h2, h3, ?_⟩
  rw [h3, h1]
  unfold saveDeviceData prefsPutString
  exact assocFind_insert_self _ _ _

theorem registry_dedup_witness :
    isDeviceScanned ([] : Store) [65, 58, 66] = false
    ∧ ([50] : List Nat) ≠ [49]
    ∧ isDeviceScanned (insertDevice [] [65, 58, 66] [49]) [65, 58, 66] = true
    ∧ insertDevice (insertDevice [] [65, 58, 66] [49]) [65, 58, 66] [50]
        = insertDevice [] [65, 58, 66] [49]
    ∧ assocFind (sanitizeKey [65, 58, 66])
        (insertDevice (insertDevice [] [65, 58, 66] [49]) [65, 58, 66] [50]) = some [49] := by
  have h := registry_dedup [] [65, 58, 66] [49] [50] (by decide) (by decide)
  exact ⟨by decide, by decide, h.1, h.2.1, h.2.2⟩

/-- Counterexample for claim C9: a session whose `ssidTotalChunks` field holds 3 (as
a session-maintained expectation would) still completes immediately on a
single chunk whose own header declares `totalChunks = 1`: the success
response fires and the session field is never consulted or updated, so the
completion decision is not based on a total-chunks value maintained in the
session between packets. -/
theorem session_total_chunks_cex :
    (handleSetSSID { initSession with ssidTotalChunks := 3 } [82, 7, 4, 1, 1, 65, 96]).2
      = createResponse 4 [0x01]
    ∧ (handleSetSSID { initSession with ssidTotalChunks := 3 }
        [82, 7, 4, 1, 1, 65, 96]).1.ssidTotalChunks = 3
    ∧ ({ initSession with ssidTotalChunks := 3 } : Session).ssidChunksReceived = 0 :=
  ⟨rfl, rfl, rfl⟩

/-- Claim C9 (amended): completion of SSID/password reassembly is decided from
the session-tracked chunks-received counter (plus the accumulated buffer)
compared against the `totalChunks` byte of the **current** packet header;
the session's `ssidTotalChunks`/`passwordTotalChunks` fields are never
consulted or updated by the handlers. -/
theorem chunk_completion_amended (s : Session) (p : List Nat) (h : 5 ≤ p.length) :
    ((handleSetSSID s p).2 ≠ [] ↔ getByte p 4 ≤ s.ssidChunksReceived + 1)
    ∧ (handleSetSSID s p).1.ssidTotalChunks = s.ssidTotalChunks
    ∧ ((handleSetPassword s p).2 ≠ [] ↔ getByte p 4 ≤ s.passwordChunksReceived + 1)
    ∧ (handleSetPassword s p).1.passwordTotalChunks = s.passwordTotalChunks := by
  have hlt : ¬ (p.length < 5) := by omega
  refine ⟨?_, ?_, ?_, ?_⟩
  · unfold handleSetSSID
    rw [if_neg hlt]
    dsimp only
    split_ifs with hc
    · simp only [hc, iff_true]
      exact createResponse_ne_nil 4 [0x01]
    · simp [hc]
  · unfold handleSetSSID
    rw [if_neg hlt]
    dsimp only
    split_ifs <;> rfl
  · unfold handleSetPassword
    rw [if_neg hlt]
    dsimp only
    split_ifs with hc
    · simp only [hc, iff_true]
      exact createResponse_ne_nil 5 [0x01]
    · simp [hc]
  · unfold handleSetPassword
    rw [if_neg hlt]
    dsimp only
    split_ifs <;> rfl

theorem chunk_completion_amended_witness :
    5 ≤ ([82, 7, 4, 1, 2, 65, 0] : List Nat).length
    ∧ ((handleSetSSID initSession [82, 7, 4, 1, 2, 65, 0]).2 ≠ []
        ↔ getByte [82, 7, 4, 1, 2, 65, 0] 4 ≤ initSession.ssidChunksReceived + 1) :=
  ⟨by decide, (chunk_completion_amended initSession [82, 7, 4, 1, 2, 65, 0] (by decide)).1⟩

/-- Counterexample for claim C1: on an already-authenticated session, a validly
framed Handshake request whose payload text is "wrong" (an 11-byte packet)
produces the failure response `[0x00]` but leaves `authenticated` equal to
`true`, so the flag does not become `false` as the claim states. -/
theorem handshake_wrong_cex :
    validateChecksum [0x52, 11, 1, 0, 0, 119, 114, 111, 110, 103, 117] = true
    ∧ (processPacket { initSession with authenticated := true }
        [0x52, 11, 1, 0, 0, 119, 114, 111, 110, 103, 117]).2 = createResponse 1 [0x00]
    ∧ (processPacket { initSession with authenticated := true }
        [0x52, 11, 1, 0, 0, 119, 114, 111, 110, 103, 117]).1.authenticated = true :=
  ⟨by decide, rfl, rfl⟩

/-- Claim C1 (amended): a validly-framed Handshake request with payload
`[0x00, 0x00, 'u','n','i','t','r','e','e']` sets `authenticated := true`
and responds with payload `[0x01]`; a validly-framed Handshake request
whose payload text is "wrong" responds with payload `[0x00]` and leaves
the session (in particular `authenticated`) unchanged, because the
11-byte packet is below the handler's 12-byte minimum. -/
theorem handshake_scenario_amended (s t : Session) (L Lw r0 r1 ck ckw : Nat)
    (hA : validateChecksum [0x52, L, 1, 0, 0, 117, 110, 105, 116, 114, 101, 101, ck] = true)
    (hB : validateChecksum [0x52, Lw, 1, r0, r1, 119, 114, 111, 110, 103, ckw] = true) :
    (processPacket s [0x52, L, 1, 0, 0, 117, 110, 105, 116, 114, 101, 101, ck]
        = ({ s with authenticated := true }, createResponse 1 [0x01])
      ∧ payloadOf (decryptData (createResponse 1 [0x01])) = [0x01])
    ∧ (processPacket t [0x52, Lw, 1, r0, r1, 119, 114, 111, 110, 103, ckw]
        = (t, createResponse 1 [0x00])
      ∧ payloadOf (decryptData (createResponse 1 [0x00])) = [0x00]) := by
  refine ⟨⟨?_, ?_⟩, ⟨?_, ?_⟩⟩
  · unfold processPacket
    rw [if_neg (by simp), if_neg (by simp [getByte]), if_neg (by simp [hA]),
      if_pos (by simp [getByte])]
    unfold handleHandshake
    rw [if_neg (by simp)]
    dsimp only
    rw [if_pos (by simp [List.dropLast, unitreeBytes])]
  · rw [decrypt_createResponse]
    decide
  · unfold processPacket
    rw [if_neg (by simp), if_neg (by simp [getByte]), if_neg (by simp [hB]),
      if_pos (by simp [getByte])]
    unfold handleHandshake
    rw [if_pos (by simp)]
  · rw [decrypt_createResponse]
    decide

theorem handshake_scenario_amended_witness :
    validateChecksum [0x52, 13, 1, 0, 0, 117, 110, 105, 116, 114, 101, 101, 164] = true
    ∧ validateChecksum [0x52, 11, 1, 0, 0, 119, 114, 111, 110, 103, 117] = true
    ∧ (processPacket initSession [0x52, 13, 1, 0, 0, 117, 110, 105, 116, 114, 101, 101, 164]
        = ({ initSession with authenticated := true }, createResponse 1 [0x01])) := by
  refine ⟨by decide, by decide, ?_⟩
  exact (handshake_scenario_amended initSession initSession 13 11 0 0 164 117
    (by decide) (by decide)).1.1

/-- The responder drops any packet that `dispatchesTo` maps to `none`
without a response, tying the dispatch mirror to `processPacket`. -/
theorem processPacket_drop_of_none (s : Session) (d : List Nat)
    (h : dispatchesTo d = none) : processPacket s d = (s, []) := by
  unfold dispatchesTo at h
  unfold processPacket
  split_ifs at h ⊢ <;> simp_all

/-- The scanner ignores any packet that fails `scanDispatches`, tying the
dispatch mirror to `scanProcess`. -/
theorem scanProcess_skip_of_false (st : ScanState) (d : List Nat)
    (h : scanDispatches d = false) : scanProcess st d = st := by
  unfold scanDispatches at h
  unfold scanProcess
  split_ifs at h ⊢ <;> simp_all

/-- Counterexample for claim C4: a 4-byte packet with the right opcode and a valid
checksum but instruction byte 0x07 passes all three claimed conditions yet
is dispatched to no handler at the responder; dually, a 4-byte response
packet meeting all three claimed conditions is rejected by the initiator,
which requires at least 5 bytes. -/
theorem dispatch_iff_cex :
    (4 ≤ ([0x52, 4, 7, 163] : List Nat).length
      ∧ getByte [0x52, 4, 7, 163] 0 = 0x52
      ∧ validateChecksum [0x52, 4, 7, 163] = true
      ∧ dispatchesTo [0x52, 4, 7, 163] = none)
    ∧ (4 ≤ ([0x51, 4, 2, 169] : List Nat).length
      ∧ getByte [0x51, 4, 2, 169] 0 = 0x51
      ∧ validateChecksum [0x51, 4, 2, 169] = true
      ∧ scanDispatches [0x51, 4, 2, 169] = false) := by
  decide

/-- Claim C4 (amended): a decrypted inbound byte sequence is dispatched to an
instruction handler iff it is at least 4 bytes (responder) / 5 bytes
(initiator), carries the opcode expected by the receiving role, satisfies
the checksum invariant, and carries an instruction the role handles (0x01
to 0x06 at the responder, exactly 0x02 at the initiator); the declared
length byte never participates in the decision, e.g. a packet whose length
byte is 255 instead of 4 is still dispatched. -/
theorem dispatch_iff_amended (d : List Nat) :
    ((dispatchesTo d).isSome
        = (decide (4 ≤ d.length) && (getByte d 0 == 0x52) && validateChecksum d
            && (decide (1 ≤ getByte d 2) && decide (getByte d 2 ≤ 6))))
    ∧ (scanDispatches d
        = (decide (5 ≤ d.length) && (getByte d 0 == 0x51) && validateChecksum d
            && (getByte d 2 == 2)))
    ∧ dispatchesTo [0x52, 0xff, 3, 172] = some 3 := by
  refine ⟨?_, ?_, by decide⟩
  · unfold dispatchesTo
    unfold validateChecksum
    split_ifs with h1 h2 h3 <;> simp_all
    omega
  · unfold scanDispatches
    unfold validateChecksum
    split_ifs with h1 h2 h3 <;> simp_all

/-- A validly framed SetSsid chunk request declaring `total` chunks, built
with the repository's own request encoder: instruction 0x04 with payload
`[chunkIndex, totalChunks, data...]` (plaintext form). -/
def mkSsidChunk (total : Nat) (c : Nat × List Nat) : List Nat :=
  plainRequest 4 (c.1 :: total :: c.2)

theorem handleSetSSID_chunk (s : Session) (total idx : Nat) (data : List Nat) :
    handleSetSSID s (mkSsidChunk total (idx, data))
      = if total ≤ s.ssidChunksReceived + 1 then
          ({ s with ssid := s.ssidBuffer ++ data, ssidBuffer := [], ssidChunksReceived := 0 },
            createResponse 4 [0x01])
        else
          ({ s with
              ssidBuffer := s.ssidBuffer ++ data
              ssidChunksReceived := s.ssidChunksReceived + 1 }, []) := by
  have hlen5 : ¬ ((mkSsidChunk total (idx, data)).length < 5) := by
    simp only [mkSsidChunk, plainRequest, List.cons_append, List.length_cons,
      List.length_append, List.length_nil]
    omega
  have hgb4 : getByte (mkSsidChunk total (idx, data)) 4 = total := by
    simp [mkSsidChunk, plainRequest, getByte]
  have hdrop : ((mkSsidChunk total (idx, data)).drop 5).dropLast = data := by
    simp [mkSsidChunk, plainRequest]
  unfold handleSetSSID
  rw [if_neg hlen5]
  dsimp only
  rw [hgb4, hdrop]

theorem processPacket_ssid_chunk (s : Session) (total idx : Nat) (data : List Nat) :
    processPacket s (mkSsidChunk total (idx, data))
      = handleSetSSID s (mkSsidChunk total (idx, data)) := by
  have hck : validateChecksum (mkSsidChunk total (idx, data)) = true := by
    unfold mkSsidChunk plainRequest
    dsimp only
    exact validateChecksum_append _ (by simp only [List.length_cons]; omega)
  have h0 : getByte (mkSsidChunk total (idx, data)) 0 = 0x52 := by
    simp [mkSsidChunk, plainRequest, getByte]
  have h2 : getByte (mkSsidChunk total (idx, data)) 2 = 4 := by
    simp [mkSsidChunk, plainRequest, getByte]
  have hlen : ¬ ((mkSsidChunk total (idx, data)).length < 4) := by
    simp only [mkSsidChunk, plainRequest, List.cons_append, List.length_cons,
      List.length_append, List.length_nil]
    omega
  unfold processPacket
  rw [if_neg hlen, if_neg (by simp [h0]), if_neg (by simp [hck]), h2]
  rfl

theorem runResponder_ssid (N : Nat) :
    ∀ (chunks : List (Nat × List Nat)) (s : Session),
      chunks ≠ [] →
      s.ssidChunksReceived + chunks.length = N →
      (runResponder s (chunks.map (mkSsidChunk N))).2
        = List.replicate (chunks.length - 1) [] ++ [createResponse 4 [0x01]] := by
  intro chunks
  induction chunks with
  | nil => intro s h _; exact absurd rfl h
  | cons c cs ih =>
    intro s _ hsum
    obtain ⟨idx, data⟩ := c
    simp only [List.map_cons, runResponder]
    rw [processPacket_ssid_chunk, handleSetSSID_chunk]
    cases cs with
    | nil =>
      rw [if_pos (by simp only [List.length_cons, List.length_nil] at hsum; omega)]
      simp [runResponder]
    | cons c2 cs2 =>
      rw [if_neg (by simp only [List.length_cons] at hsum; omega)]
      dsimp only
      rw [ih ({ s with
          ssidBuffer := s.ssidBuffer ++ data
          ssidChunksReceived := s.ssidChunksReceived + 1 }) (by simp)
        (by simp only [List.length_cons] at hsum ⊢; omega)]
      simp [List.replicate_succ]

/-- Claim C5: for a sequence of N > 1 SetSsid chunk packets each declaring N
total chunks, delivered to a responder whose ssid chunk counter is zero,
each of the first N-1 chunks yields no response at all (the empty byte
vector, so nothing is notified) and the N-th chunk — the one whose arrival
makes the chunks-received counter reach the declared total — yields
exactly one response, whose payload is the success code `[0x01]`. -/
theorem ssid_chunk_suppression (N : Nat) (chunks : List (Nat × List Nat)) (s : Session)
    (hrecv : s.ssidChunksReceived = 0) (hlen : chunks.length = N) (hN : 1 < N)
    (_hbyte : N ≤ 255) :
    (runResponder s (chunks.map (mkSsidChunk N))).2
      = List.replicate (N - 1) [] ++ [createResponse 4 [0x01]]
    ∧ payloadOf (decryptData (createResponse 4 [0x01])) = [0x01] := by
  constructor
  · have hne : chunks ≠ [] := by
      intro hc
      rw [hc] at hlen
      simp at hlen
      omega
    have h := runResponder_ssid N chunks s hne (by omega)
    rw [h, hlen]
  · rw [decrypt_createResponse]
    decide

theorem ssid_chunk_suppression_witness :
    initSession.ssidChunksReceived = 0
    ∧ ([(1, [65]), (2, [66])] : List (Nat × List Nat)).length = 2
    ∧ 1 < 2 ∧ 2 ≤ 255
    ∧ (runResponder initSession ([(1, [65]), (2, [66])].map (mkSsidChunk 2))).2
        = List.replicate 1 [] ++ [createResponse 4 [0x01]] := by
  refine ⟨rfl, rfl, by decide, by decide, ?_⟩
  exact (ssid_chunk_suppression 2 [(1, [65]), (2, [66])] initSession rfl rfl
    (by decide) (by decide)).1

theorem flatMap_congr {α β : Type} (l : List α) (g h : α → List β)
    (hgh : ∀ x ∈ l, g x = h x) : l.flatMap g = l.flatMap h := by
  induction l with
  | nil => rfl
  | cons a l ih =>
    simp only [List.flatMap_cons, hgh a (by simp)]
    rw [ih (fun x hx => hgh x (by simp [hx]))]

theorem scanProcess_chunk (st : ScanState) (idx total : Nat) (data : List Nat) :
    scanProcess st (mkSerialChunk idx total data)
      = (let chunks := assocInsert idx data st.serialChunks
         if total ≤ chunks.length then
           { serialChunks := chunks
             serialTotalChunks := total
             serialComplete := true
             serialNumber := rebuildSerial chunks total }
         else { st with serialChunks := chunks, serialTotalChunks := total }) := by
  have hck : validateChecksum (mkSerialChunk idx total data) = true := by
    unfold mkSerialChunk plainResponse
    dsimp only
    exact validateChecksum_append _ (by simp only [List.length_cons]; omega)
  have h0 : getByte (mkSerialChunk idx total data) 0 = 0x51 := by
    simp [mkSerialChunk, plainResponse, getByte]
  have h2 : getByte (mkSerialChunk idx total data) 2 = 2 := by
    simp [mkSerialChunk, plainResponse, getByte]
  have h3 : getByte (mkSerialChunk idx total data) 3 = idx := by
    simp [mkSerialChunk, plainResponse, getByte]
  have h4 : getByte (mkSerialChunk idx total data) 4 = total := by
    simp [mkSerialChunk, plainResponse, getByte]
  have hdrop : ((mkSerialChunk idx total data).drop 5).dropLast = data := by
    simp [mkSerialChunk, plainResponse]
  have hlen : ¬ ((mkSerialChunk idx total data).length < 5) := by
    simp only [mkSerialChunk, plainResponse, List.cons_append, List.length_cons,
      List.length_append, List.length_nil]
    omega
  unfold scanProcess
  rw [if_neg hlen, if_neg (by simp [h0]), if_neg (by simp [hck]), if_pos h2]
  dsimp only
  rw [h3, h4, hdrop]

theorem scan_run (f : Nat → List Nat) (N : Nat) :
    ∀ (rest done : List Nat) (st : ScanState),
      (done ++ rest).Perm (List.range' 1 N) →
      rest ≠ [] →
      st.serialChunks = done.map (fun i => (i, f i)) →
      (rest.foldl (fun acc i => scanProcess acc (mkSerialChunk i N (f i))) st).serialNumber
        = (List.range' 1 N).flatMap (fun i => (f i).filter (fun b => b != 0)) := by
  intro rest
  induction rest with
  | nil => intro done st _ h _; exact absurd rfl h
  | cons i rest ih =>
    intro done st hperm _ hchunks
    have hnodup : (done ++ i :: rest).Nodup :=
      hperm.nodup_iff.mpr (List.nodup_range' _ _)
    have hidone : i ∉ done := by
      have h1 := List.nodup_append.mp hnodup
      intro hmem
      exact h1.2.2 hmem (by simp)
    have hins : assocInsert i (f i) st.serialChunks
        = (done ++ [i]).map (fun j => (j, f j)) := by
      rw [hchunks, assocInsert_of_not_mem _ _ _ ?_]
      · simp
      · intro p hp
        obtain ⟨j, hj, rfl⟩ := List.mem_map.mp hp
        dsimp only
        intro he
        exact hidone (he ▸ hj)
    have hlentot := hperm.length_eq
    simp only [List.length_append, List.length_cons, List.length_range'] at hlentot
    simp only [List.foldl_cons]
    rw [scanProcess_chunk]
    dsimp only
    rw [hins]
    cases rest with
    | nil =>
      have hNlen : N ≤ ((done ++ [i]).map (fun j => (j, f j))).length := by
        simp only [List.length_nil] at hlentot
        simp only [List.length_map, List.length_append, List.length_cons, List.length_nil]
        omega
      rw [if_pos hNlen]
      simp only [List.foldl_nil]
      unfold rebuildSerial
      apply flatMap_congr
      intro j hj
      rw [assocFind_map, if_pos (hperm.mem_iff.mpr hj)]
    | cons i2 rest2 =>
      have hNlen : ¬ (N ≤ ((done ++ [i]).map (fun j => (j, f j))).length) := by
        simp only [List.length_cons] at hlentot
        simp only [List.length_map, List.length_append, List.length_cons, List.length_nil]
        omega
      rw [if_neg hNlen]
      apply ih (done ++ [i])
      · have heq : done ++ [i] ++ (i2 :: rest2) = done ++ i :: i2 :: rest2 := by simp
        rw [heq]
        exact hperm
      · simp
      · rfl

/-- Claim C6: the initiator's index-keyed serial reassembly is order-independent:
delivering N chunks with distinct indices 1..N (each declaring N total
chunks, with chunk i carrying data `f i`) in any arrival
permutation reconstructs the same final serial, namely the concatenation
over indices 1..N in order of each chunk's non-zero bytes. -/
theorem serial_reassembly_order_independent (N : Nat) (f : Nat → List Nat)
    (order : List Nat) (hN : 1 ≤ N) (_hNb : N ≤ 254)
    (hperm : order.Perm (List.range' 1 N)) :
    (order.foldl (fun st i => scanProcess st (mkSerialChunk i N (f i)))
        initScanState).serialNumber
      = (List.range' 1 N).flatMap (fun i => (f i).filter (fun b => b != 0)) := by
  have hne : order ≠ [] := by
    intro h
    rw [h] at hperm
    have := hperm.length_eq
    simp [List.length_range'] at this
    omega
  exact scan_run f N order [] initScanState (by simpa using hperm) hne rfl

theorem serial_reassembly_order_independent_witness :
    1 ≤ 2 ∧ 2 ≤ 254
    ∧ ([2, 1] : List Nat).Perm (List.range' 1 2)
    ∧ (([2, 1] : List Nat).foldl
        (fun st i => scanProcess st (mkSerialChunk i 2 [64 + i])) initScanState).serialNumber
      = (List.range' 1 2).flatMap (fun i => ([64 + i] : List Nat).filter (fun b => b != 0)) := by
  refine ⟨by decide, by decide, by decide, ?_⟩
  exact serial_reassembly_order_independent 2 (fun i => [64 + i]) [2, 1]
    (by decide) (by decide) (by decide)
